import Mathlib

set_option autoImplicit false
set_option maxRecDepth 8192

/-!
Verification of azely's query-resolve-and-cache core.

This file shallowly embeds the cache decorator of `azely/cache.py`
(`cache`, `resolve`, `sync_toml`), the dispatch logic of
`azely/object.py` (`get_object`, `get_object_solar`, `get_object_by_name`)
and `azely/location.py` (`get_location`, `get_location_by_ip`,
`get_location_by_name`), and the query grammar of the query module.
TOML documents are association lists, the file system is an explicit
map from paths to documents together with a counter of write-opens,
and network resolvers are oracle parameters so that theorems can state
that a code path never consults them.
-/

namespace Azely

/-- A TOML table: an association list from string keys to values.  Used both
for the top-level document of a cache file and for the file map of the model
file system.  Models a `tomlkit.TOMLDocument` restricted to the operations the
code performs: membership test, item read, item write. -/
abbrev Doc (α : Type) : Type := List (String × α)

/-- Item lookup, `doc[key]` (as an option, `none` when the key is absent). -/
def Doc.find {α : Type} : Doc α → String → Option α
  | [], _ => none
  | (k, v) :: rest, key => if k = key then some v else Doc.find rest key

/-- Membership test, `key in doc`. -/
def Doc.hasKey {α : Type} (doc : Doc α) (key : String) : Bool :=
  (Doc.find doc key).isSome

/-- Item assignment, `doc[key] = value`: replaces the value of an existing
entry in place, otherwise appends a new entry. -/
def Doc.set {α : Type} : Doc α → String → α → Doc α
  | [], key, v => [(key, v)]
  | (k, w) :: rest, key, v =>
      if k = key then (k, v) :: rest else (k, w) :: Doc.set rest key v

/-- The model file system: a map from path strings to TOML documents, plus a
counter of how many times a file has been opened for writing (so that theorems
can speak about whether a call wrote at all). -/
structure FS (α : Type) where
  files : Doc (Doc α)
  writes : Nat
deriving DecidableEq

/-- `open(path, "r")` followed by `tomlkit.load`. -/
def FS.read {α : Type} (fs : FS α) (path : String) : Option (Doc α) :=
  Doc.find fs.files path

/-- `Path(...).exists()`. -/
def FS.existsFile {α : Type} (fs : FS α) (path : String) : Bool :=
  (fs.read path).isSome

/-- `open(path, "w")` followed by `tomlkit.dump`: replaces the file's contents
and counts one write-open. -/
def FS.write {α : Type} (fs : FS α) (path : String) (doc : Doc α) : FS α :=
  ⟨Doc.set fs.files path doc, fs.writes + 1⟩

/-- The exceptions the embedded code can signal. -/
inductive Exn where
  /-- `FileNotFoundError` raised by `resolve` in `cache.py`. -/
  | fileNotFound : Exn
  /-- Marker for the unreachable `KeyError` of `doc[query]` right after the
  entry was checked or written. -/
  | keyError : Exn
  /-- Failure of the query grammar to match (spec: `ParseError`). -/
  | parseError (raw : String) : Exn
  /-- An exception raised inside the wrapped compute function, carried with
  its message so that "propagates unchanged" is expressible. -/
  | compute (msg : String) : Exn
deriving DecidableEq

/-- Azely's config directory (`AZELY_DIR` in `consts.py`).  Paths are modelled
as opaque strings; `expanduser`/`resolve` canonicalization is the identity. -/
def AZELY_DIR : String := "~/.config/azely"

/-- Split a character list on `/` (structural-recursion version of
`str.split`, so that concrete paths reduce by `rfl`). -/
def splitSlash : List Char → List (List Char)
  | [] => [[]]
  | c :: rest =>
      match splitSlash rest with
      | [] => [[]]
      | cur :: parts => if c = '/' then [] :: cur :: parts else (c :: cur) :: parts

/-- Join path components back with `/`. -/
def joinSlash : List (List Char) → List Char
  | [] => []
  | [x] => x
  | x :: xs => x ++ '/' :: joinSlash xs

/-- Drop the final extension of a file name, `pathlib` style: everything from
the last dot on, unless that dot is the leading character of the name. -/
def stemChars (base : List Char) : List Char :=
  let dropped := (base.reverse.takeWhile (fun c => !(c = '.'))).length
  if dropped < base.length && !(base.length - dropped = 1) then
    base.take (base.length - dropped - 1)
  else base

/-- `Path(p).name`: the final path component. -/
def baseName (p : String) : String :=
  String.mk (((splitSlash p.toList).getLast?).getD p.toList)

/-- `Path(p).with_suffix(".toml")`: replace the extension of the final
component with `.toml`. -/
def withSuffixToml (p : String) : String :=
  let comps := splitSlash p.toList
  let base := (comps.getLast?).getD p.toList
  String.mk (joinSlash (comps.dropLast ++ [stemChars base ++ ('.' :: ('t' :: ('o' :: ('m' :: ['l']))))]))

/-- `resolve` in `cache.py`: probe the path itself, then with a `.toml`
suffix, then under `AZELY_DIR`, and raise `FileNotFoundError` when none of
the candidates exists. -/
def resolve {α : Type} (fs : FS α) (toml : String) : Except Exn String :=
  if fs.existsFile toml then Except.ok toml
  else
    let toml2 := withSuffixToml toml
    if fs.existsFile toml2 then Except.ok toml2
    else
      let toml3 := AZELY_DIR ++ "/" ++ baseName toml2
      if fs.existsFile toml3 then Except.ok toml3
      else Except.error Exn.fileNotFound

/-- The body of the `with sync_toml(...) as doc:` block of the `cache`
wrapper in `cache.py`:

```
if update or query not in doc:
    doc[query] = asdict(func(*args, **kwargs))
return DataClass(**doc[query].unwrap())
```

`compute` is the outcome one invocation of `func` would have (a record, or a
raised exception).  The result carries the record (or exception), the document
that `sync_toml` will dump on normal exit (`none` when an exception escaped
the block, in which case no dump happens), and the number of invocations of
`func` (0 or 1).  The dataclass round trip `DataClass(**asdict(x))` is
modelled as the identity: `__post_init__` only re-formats coordinate strings
through astropy and never changes which value is stored. -/
def cacheBody {α : Type} (doc : Doc α) (update : Bool) (query : String)
    (compute : Except String α) : Except Exn α × Option (Doc α) × Nat :=
  if update || !(Doc.hasKey doc query) then
    match compute with
    | Except.error e => (Except.error (Exn.compute e), none, 1)
    | Except.ok r =>
        let doc2 := Doc.set doc query r
        match Doc.find doc2 query with
        | some r2 => (Except.ok r2, some doc2, 1)
        | none => (Except.error Exn.keyError, none, 1)
  else
    match Doc.find doc query with
    | some r2 => (Except.ok r2, some doc, 0)
    | none => (Except.error Exn.keyError, none, 0)

/-- One call of a resolver wrapped by the `cache` decorator of `cache.py`:
resolve the source path, load the document, run the wrapper body, and dump the
document on normal exit (`sync_toml` re-opens the file for writing even when
nothing changed).  Returns the outcome, the final file system, and the number
of invocations of the wrapped compute function. -/
def cache {α : Type} (fs : FS α) (source : String) (update : Bool) (query : String)
    (compute : Except String α) : Except Exn α × FS α × Nat :=
  match resolve fs source with
  | Except.error e => (Except.error e, fs, 0)
  | Except.ok path =>
      match fs.read path with
      | none => (Except.error Exn.fileNotFound, fs, 0)
      | some doc =>
          match cacheBody doc update query compute with
          | (res, none, n) => (res, fs, n)
          | (res, some doc2, n) => (res, fs.write path doc2, n)

/-! ## The query grammar

The query module (providing `parse`, used by `get_object` and `get_location`
as `from .query import parse`) is not present in the source tree — only its
callers are — so it is modelled from the spec: a single fixed regular
expression with Python matching semantics, whose groups become the parsed
query. -/

/-- Python's `\s` whitespace class. -/
def isSpace (c : Char) : Bool :=
  decide (c = ' ' ∨ c = '\t' ∨ c = '\n' ∨ c = '\r' ∨ c = '\x0b' ∨ c = '\x0c')

/-- Index of the first `!` in a character list, if any. -/
def bangIdx : List Char → Option Nat
  | [] => none
  | c :: rest => if c = '!' then some 0 else (bangIdx rest).map (fun n => n + 1)

/-- Modelled from the spec: match `([^!]+)(!)?\s*$` against `t` with Python's
greedy semantics, returning the text captured by `[^!]+` and whether the `!`
was present.  Since `[^!]+`, `!` and `\s*` can place at most one `!` in `t`
and only whitespace after it, the match is determined by the first `!`. -/
def matchTail (t : List Char) : Option (List Char × Bool) :=
  match bangIdx t with
  | none => if t.isEmpty then none else some (t, false)
  | some p =>
      if 1 ≤ p && (t.drop (p + 1)).all isSpace then some (t.take p, true) else none

/-- Modelled from the spec: attempt the optional `((.+):)` prefix with `(.+)`
capturing exactly `j` characters (which must not include a newline), followed
by the literal colon and then the tail pattern. -/
def g2At (rest : List Char) (j : Nat) : Option (List Char × List Char × Bool) :=
  if j = 0 then none
  else if (rest.drop j).head? = some ':' then
    if (rest.take j).all (fun c => !(c = '\n')) then
      match matchTail ((rest.drop j).tail) with
      | some (k, b) => some (rest.take j, k, b)
      | none => none
    else none
  else none

/-- Try `(.+)` lengths from `j` down to `1` (the greedy preference order). -/
def scanG2 (rest : List Char) : Nat → Option (List Char × List Char × Bool)
  | 0 => none
  | j + 1 =>
      match g2At rest (j + 1) with
      | some x => some x
      | none => scanG2 rest j

/-- Match `((.+):)?([^!]+)(!)?\s*$` at a fixed start position: the present
`((.+):)` alternative is preferred over the absent one. -/
def matchAt (rest : List Char) : Option (Option (List Char) × List Char × Bool) :=
  match scanG2 rest rest.length with
  | some (src, k, b) => some (some src, k, b)
  | none =>
      match matchTail rest with
      | some (k, b) => some (none, k, b)
      | none => none

/-- Backtrack the leading `\s*` from its longest match down to the empty one. -/
def scanW1 (s : List Char) : Nat → Option (Option (List Char) × List Char × Bool)
  | 0 => matchAt s
  | w + 1 =>
      match matchAt (s.drop (w + 1)) with
      | some x => some x
      | none => scanW1 s w

/-- Modelled from the spec: Python matching of the fixed query-grammar regular
expression against a whole string, returning the captured source (group 2),
body (group 3) and `!` flag (group 4). -/
def regexMatch (s : List Char) : Option (Option (List Char) × List Char × Bool) :=
  scanW1 s (s.takeWhile isSpace).length

/-- `str.strip()` on a character list, with Python's whitespace class. -/
def trimChars (t : List Char) : List Char :=
  ((t.dropWhile isSpace).reverse.dropWhile isSpace).reverse

/-- The parsed query: lookup body, optional source-file override, and the
update (forced-refresh) flag.  Field names follow the callers in
`object.py`/`location.py` (`parsed.query`, `parsed.source`, `parsed.update`);
the spec calls them `key`, `source`, `force_update`. -/
structure ParsedQuery where
  query : String
  source : Option String
  update : Bool
deriving DecidableEq

/-- Modelled from the spec: `parse` of the missing query module.  Applies the
fixed regular expression; group 2 (untrimmed) becomes the source, group 3
trimmed becomes the lookup body, group 4 sets the update flag.  Failure — the
expression does not match, or the body is empty after trimming — signals a
parse error naming the offending string. -/
def parse (raw : String) : Except Exn ParsedQuery :=
  match regexMatch raw.toList with
  | none => Except.error (Exn.parseError raw)
  | some (src, g3, bang) =>
      let key := String.mk (trimChars g3)
      if key = "" then Except.error (Exn.parseError raw)
      else Except.ok ⟨key, src.map (fun cs => String.mk cs), bang⟩

/-! ## Object dispatch (`object.py`) -/

/-- `SOLAR_FRAME` in `consts.py`. -/
def SOLAR_FRAME : String := "solar"

/-- `SOLAR_OBJECTS` in `consts.py`: `tuple(solar_system_ephemeris.bodies)`,
the fixed set of built-in ephemeris body names. -/
def SOLAR_OBJECTS : List String :=
  [("sun"), ("mercury"), ("venus"), ("earth-moon-barycenter"), ("earth"), ("moon"),
   ("mars"), ("jupiter"), ("saturn"), ("uranus"), ("neptune")]

/-- The default object cache file (`AZELY_OBJECT`), created empty at import
time by `ensure` in `consts.py`. -/
def AZELY_OBJECT : String := AZELY_DIR ++ "/objects.toml"

/-- The default location cache file (`AZELY_LOCATION`). -/
def AZELY_LOCATION : String := AZELY_DIR ++ "/locations.toml"

/-- `str.lower()`, modelled character-wise (so that concrete queries reduce
by `rfl`; agrees with Python on the ASCII names involved). -/
def toLowerStr (s : String) : String :=
  String.mk (s.toList.map Char.toLower)

/-- The `Object` dataclass of `object.py`: four string fields.
`__post_init__` only re-formats `longitude`/`latitude` through astropy for
non-solar frames and never changes `name` or `frame`; for the solar frame it
is the identity, and reconstruction from cached fields is modelled as the
identity throughout. -/
structure Object where
  name : String
  longitude : String
  latitude : String
  frame : String
deriving DecidableEq

/-- The body of `get_object_solar` in `object.py`: fabricate a Record with
placeholder coordinates and the solar frame tag. -/
def get_object_solar (query : String) : Object :=
  ⟨query, ("NA"), ("NA"), SOLAR_FRAME⟩

/-- `get_object` in `object.py`: parse the query, then dispatch on membership
of the lowercased body in `SOLAR_OBJECTS`.  Both strategies are wrapped by
the `cache` decorator with the source file `parsed.source or AZELY_OBJECT`
and the parsed update flag.  The network resolver (`SkyCoord.from_name`
inside `get_object_by_name`) is the oracle `net`. -/
def get_object (net : String → Except String Object) (fs : FS Object) (raw : String) :
    Except Exn Object × FS Object × Nat :=
  match parse raw with
  | Except.error e => (Except.error e, fs, 0)
  | Except.ok parsed =>
      if SOLAR_OBJECTS.contains (toLowerStr parsed.query) then
        cache fs (parsed.source.getD AZELY_OBJECT) parsed.update parsed.query
          (Except.ok (get_object_solar parsed.query))
      else
        cache fs (parsed.source.getD AZELY_OBJECT) parsed.update parsed.query
          (net parsed.query)

/-- A network oracle that resolves every name. -/
def netA : String → Except String Object :=
  fun q => Except.ok ⟨q, ("1h"), ("2d"), ("icrs")⟩

/-- A network oracle that always fails. -/
def netB : String → Except String Object :=
  fun _ => Except.error ("no network")

/-! ## Location dispatch (`location.py`) -/

/-- `HERE` in `consts.py`. -/
def HERE : String := "here"

/-- The `Location` dataclass of `location.py` (string fields; the
`__post_init__` unit normalization is modelled as the identity, as for
`Object`). -/
structure Location where
  name : String
  longitude : String
  latitude : String
  altitude : String
deriving DecidableEq

/-- The two resolution strategies `get_location` can select. -/
inductive LocationStrategy where
  | byIP : LocationStrategy
  | byName : LocationStrategy
deriving DecidableEq

/-- The dispatch predicate of `get_location` in `location.py`:
`if parsed.query.lower() == HERE`. -/
def locationStrategy (query : String) : LocationStrategy :=
  if toLowerStr query = HERE then LocationStrategy.byIP else LocationStrategy.byName

/-- `get_location` in `location.py`: parse the query, then dispatch on the
lowercased body being `here`.  Both strategies are wrapped by the `cache`
decorator against `parsed.source or AZELY_LOCATION` (passed as the `cache=`
argument).  The IP-based resolver (`ipinfo.io` in `get_location_by_ip`) is
the oracle `ip`; the OpenStreetMap resolver (`EarthLocation.of_address` in
`get_location_by_name`) is the oracle `net`. -/
def get_location (ip : Except String Location) (net : String → Except String Location)
    (fs : FS Location) (raw : String) : Except Exn Location × FS Location × Nat :=
  match parse raw with
  | Except.error e => (Except.error e, fs, 0)
  | Except.ok parsed =>
      if (toLowerStr parsed.query) = HERE then
        cache fs (parsed.source.getD AZELY_LOCATION) parsed.update parsed.query ip
      else
        cache fs (parsed.source.getD AZELY_LOCATION) parsed.update parsed.query
          (net parsed.query)

/-- An IP-based oracle. -/
def ipStub : Except String Location := Except.ok ⟨("Tokyo"), ("139deg"), ("35deg"), ("0m")⟩

/-- An OpenStreetMap oracle. -/
def netL : String → Except String Location := fun q => Except.ok ⟨q, ("0deg"), ("0deg"), ("0m")⟩

/-! ## The append-capable cache contract -/

/-- Modelled from the spec: the `get_or_create` contract of §4.3.  The
append-capable resolver generation (called from `api.calc` with
`append`/`overwrite`/`source` options) is not present under the source tree —
`api.py` only calls it — so its cache is modelled from the spec's words: the
document holds one sub-table per entity kind; a present key is returned
without invoking compute unless an overwrite is requested; a missing key
invokes compute and persists the record only when `append` is true; a
compute failure propagates with no write. -/
def get_or_create {α : Type} (doc : Doc (Doc α)) (table key : String)
    (append overwrite : Bool) (compute : Except String α) :
    Except String (α × Doc (Doc α)) :=
  let tbl := (Doc.find doc table).getD []
  match Doc.find tbl key with
  | some r =>
      if overwrite then
        match compute with
        | Except.error e => Except.error e
        | Except.ok r2 => Except.ok (r2, Doc.set doc table (Doc.set tbl key r2))
      else Except.ok (r, doc)
  | none =>
      match compute with
      | Except.error e => Except.error e
      | Except.ok r2 =>
          if append then Except.ok (r2, Doc.set doc table (Doc.set tbl key r2))
          else Except.ok (r2, doc)

/-! ## Theorems -/

theorem Doc.find_set {α : Type} (d : Doc α) (k : String) (v : α) (q : String) :
    Doc.find (Doc.set d k v) q = if k = q then some v else Doc.find d q := by
  induction d with
  | nil =>
      by_cases h : k = q <;> simp [Doc.set, Doc.find, h]
  | cons hd tl ih =>
      obtain ⟨k', w⟩ := hd
      by_cases h1 : k' = k
      · subst h1
        by_cases h2 : k' = q <;> simp [Doc.set, Doc.find, h2]
      · by_cases h2 : k' = q
        · subst h2
          have h3 : ¬ k = k' := fun h => h1 h.symm
          simp [Doc.set, Doc.find, h1, h3]
        · simp [Doc.set, Doc.find, h1, h2, ih]

theorem Doc.find_set_self {α : Type} (d : Doc α) (k : String) (v : α) :
    Doc.find (Doc.set d k v) k = some v := by
  simp [Doc.find_set]

/-- Writing back the value an entry already holds leaves the table unchanged
(used for the re-serialization performed by `sync_toml` on a pure cache hit). -/
theorem Doc.set_eq_self {α : Type} (d : Doc α) (k : String) (v : α)
    (h : Doc.find d k = some v) : Doc.set d k v = d := by
  induction d with
  | nil => simp [Doc.find] at h
  | cons hd tl ih =>
      obtain ⟨k', w⟩ := hd
      by_cases h1 : k' = k
      · simp only [Doc.find, if_pos h1] at h
        obtain rfl : w = v := Option.some.inj h
        simp [Doc.set, h1]
      · simp only [Doc.find, if_neg h1] at h
        simp [Doc.set, h1, ih h]

theorem FS.read_write {α : Type} (fs : FS α) (p : String) (d : Doc α) (q : String) :
    (fs.write p d).read q = if p = q then some d else fs.read q := by
  simp [FS.write, FS.read, Doc.find_set]

theorem FS.existsFile_write {α : Type} (fs : FS α) (p : String) (d : Doc α) (q : String)
    (hp : fs.read p ≠ none) : (fs.write p d).existsFile q = fs.existsFile q := by
  by_cases h : p = q
  · subst h
    simp only [FS.existsFile, FS.read_write, if_pos rfl, Option.isSome_some]
    exact (Option.isSome_iff_ne_none.mpr hp).symm
  · simp [FS.existsFile, FS.read_write, h]

theorem resolve_write {α : Type} (fs : FS α) (p : String) (d : Doc α) (s : String)
    (hp : fs.read p ≠ none) : resolve (fs.write p d) s = resolve fs s := by
  simp only [resolve, FS.existsFile_write _ _ _ _ hp]

theorem cacheBody_miss_ok {α : Type} (doc : Doc α) (query : String) (r : α)
    (habs : Doc.hasKey doc query = false) :
    cacheBody doc false query (Except.ok r) =
      (Except.ok r, some (Doc.set doc query r), 1) := by
  simp [cacheBody, habs, Doc.find_set_self]

theorem cacheBody_hit {α : Type} (doc : Doc α) (query : String) (r0 : α)
    (c : Except String α) (hstored : Doc.find doc query = some r0) :
    cacheBody doc false query c = (Except.ok r0, some doc, 0) := by
  simp [cacheBody, Doc.hasKey, hstored]

theorem cacheBody_update_ok {α : Type} (doc : Doc α) (query : String) (r : α) :
    cacheBody doc true query (Except.ok r) =
      (Except.ok r, some (Doc.set doc query r), 1) := by
  simp [cacheBody, Doc.find_set_self]

theorem cacheBody_err {α : Type} (doc : Doc α) (update : Bool) (query : String)
    (e : String) (hcond : (update || !(Doc.hasKey doc query)) = true) :
    cacheBody doc update query (Except.error e) =
      (Except.error (Exn.compute e), none, 1) := by
  simp [cacheBody, hcond]

theorem cache_eq_of_resolved {α : Type} (fs : FS α) (source : String) (update : Bool)
    (query : String) (compute : Except String α) (path : String) (doc : Doc α)
    (hres : resolve fs source = Except.ok path) (hread : fs.read path = some doc) :
    cache fs source update query compute =
      (match cacheBody doc update query compute with
       | (res, none, n) => (res, fs, n)
       | (res, some doc2, n) => (res, fs.write path doc2, n)) := by
  simp [cache, hres, hread]

/-- C1.  With the update flag false and a key initially absent, the first
call invokes the compute function once, persists its record, and returns it;
a second call (whatever its compute would do) returns the same record without
invoking compute.  So both calls return equal records and compute runs
exactly once in total. -/
theorem cache_idempotent {α : Type} (fs : FS α) (source query path : String)
    (doc : Doc α) (r : α) (c₂ : Except String α)
    (hres : resolve fs source = Except.ok path)
    (hread : fs.read path = some doc)
    (habs : Doc.hasKey doc query = false) :
    cache fs source false query (Except.ok r) =
      (Except.ok r, fs.write path (Doc.set doc query r), 1) ∧
    cache (fs.write path (Doc.set doc query r)) source false query c₂ =
      (Except.ok r,
       (fs.write path (Doc.set doc query r)).write path (Doc.set doc query r), 0) := by
  have hp : fs.read path ≠ none := by simp [hread]
  constructor
  · rw [cache_eq_of_resolved fs source false query (Except.ok r) path doc hres hread]
    rw [cacheBody_miss_ok doc query r habs]
  · have hres2 : resolve (fs.write path (Doc.set doc query r)) source = Except.ok path := by
      rw [resolve_write fs path (Doc.set doc query r) source hp, hres]
    have hread2 : (fs.write path (Doc.set doc query r)).read path = some (Doc.set doc query r) := by
      simp [FS.read_write]
    rw [cache_eq_of_resolved _ source false query c₂ path (Doc.set doc query r) hres2 hread2]
    rw [cacheBody_hit (Doc.set doc query r) query r c₂ (Doc.find_set_self doc query r)]

theorem cache_idempotent_witness :
    cache (⟨[(("cache.toml"), [])], 0⟩ : FS (List String)) ("cache.toml") false ("q")
        (Except.ok ["v"]) =
      (Except.ok ["v"], ⟨[(("cache.toml"), [(("q"), ["v"])])], 1⟩, 1) ∧
    cache (⟨[(("cache.toml"), [(("q"), ["v"])])], 1⟩ : FS (List String)) ("cache.toml") false ("q")
        (Except.error ("boom")) =
      (Except.ok ["v"], ⟨[(("cache.toml"), [(("q"), ["v"])])], 2⟩, 0) :=
  cache_idempotent ⟨[(("cache.toml"), [])], 0⟩ ("cache.toml") ("q") ("cache.toml")
    [] ["v"] (Except.error ("boom")) rfl rfl rfl

/-- C2.  If the compute function is actually invoked (the update flag is set
or the key is absent) and it raises, the wrapper re-raises the same exception
and `sync_toml` never reaches its dump: the file system — contents and write
count alike — is exactly as before the call. -/
theorem cache_compute_failure_atomic {α : Type} (fs : FS α) (source : String)
    (update : Bool) (query : String) (e : String) (path : String) (doc : Doc α)
    (hres : resolve fs source = Except.ok path)
    (hread : fs.read path = some doc)
    (hcond : (update || !(Doc.hasKey doc query)) = true) :
    cache fs source update query (Except.error e) =
      (Except.error (Exn.compute e), fs, 1) := by
  rw [cache_eq_of_resolved fs source update query (Except.error e) path doc hres hread]
  rw [cacheBody_err doc update query e hcond]

theorem cache_compute_failure_atomic_witness :
    cache (⟨[(("cache.toml"), [(("q"), ["v"])])], 5⟩ : FS (List String)) ("cache.toml")
        false ("other") (Except.error ("net down")) =
      (Except.error (Exn.compute ("net down")),
       ⟨[(("cache.toml"), [(("q"), ["v"])])], 5⟩, 1) :=
  cache_compute_failure_atomic ⟨[(("cache.toml"), [(("q"), ["v"])])], 5⟩ ("cache.toml")
    false ("other") ("net down") ("cache.toml") [(("q"), ["v"])] rfl rfl rfl

/-- C3.  With the update flag true on a key that already holds a different
record, the wrapper invokes compute, overwrites the stored entry with the new
record, persists it, and a later plain call returns the new record, not the
original. -/
theorem cache_overwrite_semantics {α : Type} (fs : FS α) (source query path : String)
    (doc : Doc α) (r0 r1 : α) (c₂ : Except String α)
    (hres : resolve fs source = Except.ok path)
    (hread : fs.read path = some doc)
    (_hstored : Doc.find doc query = some r0)
    (hne : r1 ≠ r0) :
    cache fs source true query (Except.ok r1) =
      (Except.ok r1, fs.write path (Doc.set doc query r1), 1) ∧
    Doc.find (Doc.set doc query r1) query = some r1 ∧
    cache (fs.write path (Doc.set doc query r1)) source false query c₂ =
      (Except.ok r1,
       (fs.write path (Doc.set doc query r1)).write path (Doc.set doc query r1), 0) ∧
    (Except.ok r1 : Except Exn α) ≠ Except.ok r0 := by
  have hp : fs.read path ≠ none := by simp [hread]
  refine ⟨?_, Doc.find_set_self doc query r1, ?_, by simpa using hne⟩
  · rw [cache_eq_of_resolved fs source true query (Except.ok r1) path doc hres hread]
    rw [cacheBody_update_ok doc query r1]
  · have hres2 : resolve (fs.write path (Doc.set doc query r1)) source = Except.ok path := by
      rw [resolve_write fs path (Doc.set doc query r1) source hp, hres]
    have hread2 : (fs.write path (Doc.set doc query r1)).read path
        = some (Doc.set doc query r1) := by
      simp [FS.read_write]
    rw [cache_eq_of_resolved _ source false query c₂ path (Doc.set doc query r1) hres2 hread2]
    rw [cacheBody_hit (Doc.set doc query r1) query r1 c₂ (Doc.find_set_self doc query r1)]

theorem cache_overwrite_semantics_witness :
    cache (⟨[(("cache.toml"), [(("q"), ["old"])])], 0⟩ : FS (List String)) ("cache.toml")
        true ("q") (Except.ok ["new"]) =
      (Except.ok ["new"], ⟨[(("cache.toml"), [(("q"), ["new"])])], 1⟩, 1) ∧
    Doc.find (Doc.set [(("q"), ["old"])] ("q") ["new"]) ("q") = some ["new"] ∧
    cache (⟨[(("cache.toml"), [(("q"), ["new"])])], 1⟩ : FS (List String)) ("cache.toml")
        false ("q") (Except.error ("boom")) =
      (Except.ok ["new"], ⟨[(("cache.toml"), [(("q"), ["new"])])], 2⟩, 0) ∧
    (Except.ok ["new"] : Except Exn (List String)) ≠ Except.ok ["old"] :=
  cache_overwrite_semantics ⟨[(("cache.toml"), [(("q"), ["old"])])], 0⟩ ("cache.toml")
    ("q") ("cache.toml") [(("q"), ["old"])] ["old"] ["new"] (Except.error ("boom"))
    rfl rfl rfl (by decide)

/-- C8, counterexample.  On an empty file system, a cache-wrapped call fails
with `FileNotFoundError` from `resolve`; no empty document is created and the
operation does not proceed, contrary to the claim. -/
theorem missing_file_cex :
    cache (⟨[], 0⟩ : FS (List String)) ("locations") false ("tokyo")
        (Except.ok ["v"]) =
      (Except.error Exn.fileNotFound, ⟨[], 0⟩, 0) := rfl

/-- C8, amended.  When none of the three candidate paths probed by `resolve`
(the source itself, the source with a `.toml` suffix, the file of that name
under `AZELY_DIR`) exists, the call fails with `FileNotFoundError`, the file
system is untouched, and the compute function is never invoked.  (The default
cache files are instead created empty at import time by `ensure` in
`consts.py`, outside this operation.) -/
theorem missing_file_amended {α : Type} (fs : FS α) (source : String) (update : Bool)
    (query : String) (c : Except String α)
    (h1 : fs.existsFile source = false)
    (h2 : fs.existsFile (withSuffixToml source) = false)
    (h3 : fs.existsFile (AZELY_DIR ++ "/" ++ baseName (withSuffixToml source)) = false) :
    cache fs source update query c = (Except.error Exn.fileNotFound, fs, 0) := by
  have hres : resolve fs source = Except.error Exn.fileNotFound := by
    simp [resolve, h1, h2, h3]
  simp [cache, hres]

theorem missing_file_amended_witness :
    cache (⟨[(("elsewhere.toml"), [])], 3⟩ : FS (List String)) ("locations") true ("tokyo")
        (Except.ok ["v"]) =
      (Except.error Exn.fileNotFound, ⟨[(("elsewhere.toml"), [])], 3⟩, 0) :=
  missing_file_amended ⟨[(("elsewhere.toml"), [])], 3⟩ ("locations") true ("tokyo")
    (Except.ok ["v"]) rfl rfl rfl

/-- C10.  Every successful cache-wrapped call re-opens the resolved file for
writing exactly once on exit — a pure cache hit included — and on a pure hit
the re-serialized contents are identical to what was read. -/
theorem sync_toml_always_writes {α : Type} (fs : FS α) (source : String) (update : Bool)
    (query : String) (c : Except String α) (path : String) (doc : Doc α) (r : α)
    (hres : resolve fs source = Except.ok path)
    (hread : fs.read path = some doc)
    (hsucc : (update || !(Doc.hasKey doc query)) = true → c = Except.ok r) :
    ((cache fs source update query c).2.1).writes = fs.writes + 1 ∧
    ((update || !(Doc.hasKey doc query)) = false →
      ((cache fs source update query c).2.1).files = fs.files) := by
  rw [cache_eq_of_resolved fs source update query c path doc hres hread]
  by_cases hcond : (update || !(Doc.hasKey doc query)) = true
  · rw [hsucc hcond]
    constructor
    · rcases hu : update with _ | _
      · have habs : Doc.hasKey doc query = false := by
          rcases hk : Doc.hasKey doc query with _ | _
          · rfl
          · rw [hu, hk] at hcond; simp at hcond
        rw [cacheBody_miss_ok doc query r habs]
        simp [FS.write]
      · rw [cacheBody_update_ok doc query r]
        simp [FS.write]
    · intro hfalse
      rw [hcond] at hfalse
      exact absurd hfalse (by simp)
  · have hcond' : (update || !(Doc.hasKey doc query)) = false := by
      rcases h : (update || !(Doc.hasKey doc query)) with _ | _
      · rfl
      · exact absurd h hcond
    have hkey : Doc.hasKey doc query = true := by
      rcases h : Doc.hasKey doc query with _ | _
      · rw [h] at hcond'; simp at hcond'
      · rfl
    obtain ⟨r0, hr0⟩ := Option.isSome_iff_exists.mp hkey
    rcases hu : update with _ | _
    · rw [cacheBody_hit doc query r0 c hr0]
      constructor
      · simp [FS.write]
      · intro _
        simp [FS.write, Doc.set_eq_self fs.files path doc hread]
    · rw [hu] at hcond'; simp at hcond'

theorem sync_toml_always_writes_witness :
    ((cache (⟨[(("cache.toml"), [(("q"), ["v"])])], 7⟩ : FS (List String)) ("cache.toml")
        false ("q") (Except.error ("never used"))).2.1).writes = 7 + 1 ∧
    ((cache (⟨[(("cache.toml"), [(("q"), ["v"])])], 7⟩ : FS (List String)) ("cache.toml")
        false ("q") (Except.error ("never used"))).2.1).files =
      [(("cache.toml"), [(("q"), ["v"])])] := by
  have h := sync_toml_always_writes (⟨[(("cache.toml"), [(("q"), ["v"])])], 7⟩ : FS (List String))
    ("cache.toml") false ("q") (Except.error ("never used")) ("cache.toml")
    [(("q"), ["v"])] ["v"] rfl rfl (by intro h; exact absurd h (by decide))
  exact ⟨h.1, h.2 (by decide)⟩

theorem mk_toList (s : String) : String.mk s.toList = s := by
  cases s
  rfl

theorem bangIdx_eq_none (t : List Char) (h : '!' ∉ t) : bangIdx t = none := by
  induction t with
  | nil => rfl
  | cons c rest ih =>
      have hc : ¬ c = '!' := fun hc => h (hc ▸ List.mem_cons_self c rest)
      have hrest : '!' ∉ rest := fun hm => h (List.mem_cons_of_mem c hm)
      simp [bangIdx, hc, ih hrest]

theorem matchTail_full (t : List Char) (hne : t ≠ []) (h : '!' ∉ t) :
    matchTail t = some (t, false) := by
  unfold matchTail
  rw [bangIdx_eq_none t h]
  simp [hne]

theorem g2At_none (rest : List Char) (j : Nat) (h : ':' ∉ rest) : g2At rest j = none := by
  unfold g2At
  by_cases hj : j = 0
  · simp [hj]
  · have hc : ¬ (rest.drop j).head? = some ':' := by
      intro hh
      have hmem : ':' ∈ rest.drop j := by
        cases hd : rest.drop j with
        | nil => rw [hd] at hh; exact absurd hh (by simp)
        | cons c tl =>
            rw [hd] at hh
            obtain rfl : c = ':' := by simpa using hh
            exact List.mem_cons_self _ _
      exact h (List.drop_subset j rest hmem)
    rw [if_neg hj, if_neg hc]

theorem scanG2_none (rest : List Char) (h : ':' ∉ rest) (n : Nat) :
    scanG2 rest n = none := by
  induction n with
  | zero => rfl
  | succ n ih =>
      unfold scanG2
      rw [g2At_none rest (n + 1) h]
      exact ih

theorem dropWhile_eq_self (p : Char → Bool) (t : List Char) (h : t.takeWhile p = []) :
    t.dropWhile p = t := by
  cases t with
  | nil => rfl
  | cons c rest =>
      by_cases hc : p c
      · simp [List.takeWhile_cons, hc] at h
      · simp [List.dropWhile_cons, hc]

theorem parse_eq_of_match (raw : String) (src : Option (List Char)) (g3 : List Char)
    (bang : Bool) (hm : regexMatch raw.toList = some (src, g3, bang)) :
    parse raw =
      (if String.mk (trimChars g3) = "" then Except.error (Exn.parseError raw)
       else Except.ok ⟨String.mk (trimChars g3), src.map (fun cs => String.mk cs), bang⟩) := by
  unfold parse
  rw [hm]

theorem parse_eq_of_no_match (raw : String) (hm : regexMatch raw.toList = none) :
    parse raw = Except.error (Exn.parseError raw) := by
  unfold parse
  rw [hm]

theorem parse_ok_query_ne_empty (raw : String) (p : ParsedQuery)
    (h : parse raw = Except.ok p) : p.query ≠ "" := by
  cases hm : regexMatch raw.toList with
  | none =>
      rw [parse_eq_of_no_match raw hm] at h
      exact absurd h (by simp)
  | some x =>
      obtain ⟨src, g3, bang⟩ := x
      rw [parse_eq_of_match raw src g3 bang hm] at h
      split at h
      · exact absurd h (by simp)
      · next hk =>
          obtain rfl : (⟨String.mk (trimChars g3), src.map (fun cs => String.mk cs), bang⟩ : ParsedQuery) = p :=
            Except.ok.inj h
          exact hk

/-- C9, counterexample.  The empty string contains neither `:` nor `!`, yet
parsing it does not produce a `ParsedQuery` at all: the regular expression
requires a non-empty body, so `parse` signals a parse error. -/
theorem parse_roundtrip_cex :
    parse ("") = Except.error (Exn.parseError ("")) ∧
    (("").toList.contains ':' = false ∧ ("").toList.contains '!' = false) :=
  ⟨rfl, rfl, rfl⟩

/-- C9, amended.  For every *non-empty* key without `:` or `!` and without
leading or trailing whitespace, parsing returns exactly that key, no source,
and a false update flag.  (The original claim also covered the empty string
and whitespace-padded keys, where it fails: the regular expression rejects an
empty body, and the spec trims group 3.) -/
theorem parse_roundtrip_amended (k : String)
    (hne : k ≠ "")
    (hcolon : ':' ∉ k.toList)
    (hbang : '!' ∉ k.toList)
    (hlead : k.toList.takeWhile isSpace = [])
    (htrail : k.toList.reverse.takeWhile isSpace = []) :
    parse k = Except.ok ⟨k, none, false⟩ := by
  have hlist : k.toList ≠ [] := by
    intro hnil
    exact hne (by rw [← mk_toList k, hnil])
  have hmt : matchTail k.toList = some (k.toList, false) := matchTail_full _ hlist hbang
  have hmatch : regexMatch k.toList = some (none, k.toList, false) := by
    unfold regexMatch
    rw [hlead]
    show matchAt k.toList = _
    unfold matchAt
    rw [scanG2_none k.toList hcolon, hmt]
  have htrim : trimChars k.toList = k.toList := by
    unfold trimChars
    rw [dropWhile_eq_self isSpace k.toList hlead, dropWhile_eq_self isSpace _ htrail,
      List.reverse_reverse]
  rw [parse_eq_of_match k none k.toList false hmatch]
  rw [htrim, mk_toList k, if_neg hne]
  rfl

theorem parse_roundtrip_amended_witness :
    parse ("tokyo") = Except.ok ⟨("tokyo"), none, false⟩ :=
  parse_roundtrip_amended ("tokyo") (by decide) (by decide) (by decide) rfl rfl

theorem cacheBody_ok_invoked {α : Type} (doc : Doc α) (update : Bool) (query : String)
    (r : α) (hcond : (update || !(Doc.hasKey doc query)) = true) :
    cacheBody doc update query (Except.ok r) =
      (Except.ok r, some (Doc.set doc query r), 1) := by
  simp [cacheBody, hcond, Doc.find_set_self]

/-- C5, counterexample.  A user-supplied source table may already hold an
entry under a solar body name; a non-forced query then returns that stored
record — here with frame `icrs`, not `solar` — although the solar strategy
was chosen. -/
theorem solar_dispatch_cex :
    (((get_object netB ⟨[(("user.toml"), [(("sun"), ⟨("sun"), ("0h"), ("0d"), ("icrs")⟩)])], 0⟩
        ("user:sun")).1.toOption).map Object.frame) = some ("icrs") ∧
    ¬ (("icrs") = SOLAR_FRAME) :=
  ⟨rfl, by decide⟩

/-- C5, amended.  For a query whose lowercased body is a solar object name,
dispatch always chooses the solar-body strategy and the network resolver is
never consulted (the outcome is the same for every network oracle); whenever
the compute actually runs — the update flag forced or the key absent from the
resolved table — the returned record is the fabricated one with placeholder
coordinates and frame `solar`.  A non-forced call on an existing entry
returns the stored record as-is (see the counterexample). -/
theorem solar_dispatch_amended (net net' : String → Except String Object) (fs : FS Object)
    (raw path : String) (p : ParsedQuery) (doc : Doc Object)
    (hparse : parse raw = Except.ok p)
    (hsolar : SOLAR_OBJECTS.contains (toLowerStr p.query) = true)
    (hres : resolve fs (p.source.getD AZELY_OBJECT) = Except.ok path)
    (hread : fs.read path = some doc)
    (hmiss : p.update = true ∨ Doc.hasKey doc p.query = false) :
    get_object net fs raw = get_object net' fs raw ∧
    (get_object net fs raw).1 = Except.ok ⟨p.query, ("NA"), ("NA"), SOLAR_FRAME⟩ := by
  have hcond : (p.update || !(Doc.hasKey doc p.query)) = true := by
    rcases hmiss with h | h <;> simp [h]
  have hobj : ∀ nn : String → Except String Object, get_object nn fs raw =
      cache fs (p.source.getD AZELY_OBJECT) p.update p.query
        (Except.ok (get_object_solar p.query)) := by
    intro nn
    have hmem : toLowerStr p.query ∈ SOLAR_OBJECTS := by
      simpa using hsolar
    simp [get_object, hparse, hmem]
  constructor
  · rw [hobj net, hobj net']
  · rw [hobj net]
    rw [cache_eq_of_resolved _ _ _ _ _ path doc hres hread]
    rw [cacheBody_ok_invoked doc p.update p.query (get_object_solar p.query) hcond]
    rfl

theorem solar_dispatch_amended_witness :
    get_object netA ⟨[(("~/.config/azely/objects.toml"), [])], 0⟩ ("sun!") =
      get_object netB ⟨[(("~/.config/azely/objects.toml"), [])], 0⟩ ("sun!") ∧
    (get_object netA ⟨[(("~/.config/azely/objects.toml"), [])], 0⟩ ("sun!")).1 =
      Except.ok ⟨("sun"), ("NA"), ("NA"), SOLAR_FRAME⟩ :=
  solar_dispatch_amended netA netB ⟨[(("~/.config/azely/objects.toml"), [])], 0⟩
    ("sun!") ("~/.config/azely/objects.toml") ⟨("sun"), none, true⟩ []
    rfl rfl rfl rfl (Or.inl rfl)

/-- C6, counterexample.  With an explicit source override and a key absent
from the user table, the code does not signal a not-found error: it falls
through to the network resolver (two different oracles give two different
outcomes) and writes the network record into the user-supplied table. -/
theorem explicit_source_cex :
    (((get_object netA ⟨[(("user.toml"), [])], 0⟩ ("user:foo")).1.toOption).map Object.name
        = some ("foo")) ∧
    ((get_object netB ⟨[(("user.toml"), [])], 0⟩ ("user:foo")).1
        = Except.error (Exn.compute ("no network"))) ∧
    (((get_object netA ⟨[(("user.toml"), [])], 0⟩ ("user:foo")).2.1.read ("user.toml")).map
        (fun d => Doc.hasKey d ("foo")) = some true) :=
  ⟨rfl, rfl, rfl⟩

/-- C6, amended.  An explicit source override makes resolution use the
user-supplied table as the cache file.  If the key is present (and no update
is forced), its record is returned verbatim, the network oracle is never
consulted, and the table's contents are unchanged (though the file is
re-serialized); if the key is absent, the call falls through to the network
resolver and appends its record to the user-supplied table.  No not-found
error exists on this path. -/
theorem explicit_source_amended (net net' : String → Except String Object) (fs : FS Object)
    (raw s path : String) (p : ParsedQuery) (doc : Doc Object) (r rNew : Object)
    (hparse : parse raw = Except.ok p)
    (hsrc : p.source = some s)
    (hns : SOLAR_OBJECTS.contains (toLowerStr p.query) = false)
    (hres : resolve fs s = Except.ok path)
    (hread : fs.read path = some doc)
    (hupd : p.update = false) :
    (Doc.find doc p.query = some r →
      (get_object net fs raw).1 = Except.ok r ∧
      get_object net fs raw = get_object net' fs raw ∧
      ((get_object net fs raw).2.1).files = fs.files) ∧
    (Doc.find doc p.query = none → net p.query = Except.ok rNew →
      (get_object net fs raw).1 = Except.ok rNew ∧
      ((get_object net fs raw).2.1).read path = some (Doc.set doc p.query rNew)) := by
  have hobj : ∀ nn : String → Except String Object, get_object nn fs raw =
      cache fs s false p.query (nn p.query) := by
    intro nn
    have hnm : toLowerStr p.query ∉ SOLAR_OBJECTS := by
      simpa using hns
    simp [get_object, hparse, hnm, hsrc, hupd]
  constructor
  · intro hr
    have hcall : ∀ nn : String → Except String Object,
        get_object nn fs raw = (Except.ok r, fs.write path doc, 0) := by
      intro nn
      rw [hobj nn, cache_eq_of_resolved _ _ _ _ _ path doc hres hread]
      rw [cacheBody_hit doc p.query r (nn p.query) hr]
    refine ⟨by rw [hcall net], by rw [hcall net, hcall net'], ?_⟩
    rw [hcall net]
    simp [FS.write, Doc.set_eq_self fs.files path doc hread]
  · intro habs hnet
    have hkey : Doc.hasKey doc p.query = false := by simp [Doc.hasKey, habs]
    have hcall : get_object net fs raw =
        (Except.ok rNew, fs.write path (Doc.set doc p.query rNew), 1) := by
      rw [hobj net, cache_eq_of_resolved _ _ _ _ _ path doc hres hread, hnet]
      rw [cacheBody_miss_ok doc p.query rNew hkey]
    refine ⟨by rw [hcall], ?_⟩
    rw [hcall]
    simp [FS.read_write]

theorem explicit_source_amended_witness :
    (Doc.find [(("GC"), (⟨("GC"), ("0h"), ("0d"), ("galactic")⟩ : Object))] ("GC")
        = some ⟨("GC"), ("0h"), ("0d"), ("galactic")⟩ →
      (get_object netA ⟨[(("user.toml"), [(("GC"), ⟨("GC"), ("0h"), ("0d"), ("galactic")⟩)])], 0⟩
          ("user:GC")).1 = Except.ok ⟨("GC"), ("0h"), ("0d"), ("galactic")⟩ ∧
      get_object netA ⟨[(("user.toml"), [(("GC"), ⟨("GC"), ("0h"), ("0d"), ("galactic")⟩)])], 0⟩
          ("user:GC") =
        get_object netB ⟨[(("user.toml"), [(("GC"), ⟨("GC"), ("0h"), ("0d"), ("galactic")⟩)])], 0⟩
          ("user:GC") ∧
      ((get_object netA ⟨[(("user.toml"), [(("GC"), ⟨("GC"), ("0h"), ("0d"), ("galactic")⟩)])], 0⟩
          ("user:GC")).2.1).files = [(("user.toml"), [(("GC"), ⟨("GC"), ("0h"), ("0d"), ("galactic")⟩)])]) ∧
    (Doc.find [(("GC"), (⟨("GC"), ("0h"), ("0d"), ("galactic")⟩ : Object))] ("GC") = none →
      netA ("GC") = Except.ok ⟨("GC"), ("1h"), ("2d"), ("icrs")⟩ →
      (get_object netA ⟨[(("user.toml"), [(("GC"), ⟨("GC"), ("0h"), ("0d"), ("galactic")⟩)])], 0⟩
          ("user:GC")).1 = Except.ok ⟨("GC"), ("1h"), ("2d"), ("icrs")⟩ ∧
      ((get_object netA ⟨[(("user.toml"), [(("GC"), ⟨("GC"), ("0h"), ("0d"), ("galactic")⟩)])], 0⟩
          ("user:GC")).2.1).read ("user.toml") =
        some (Doc.set [(("GC"), ⟨("GC"), ("0h"), ("0d"), ("galactic")⟩)] ("GC")
          ⟨("GC"), ("1h"), ("2d"), ("icrs")⟩)) :=
  explicit_source_amended netA netB
    ⟨[(("user.toml"), [(("GC"), ⟨("GC"), ("0h"), ("0d"), ("galactic")⟩)])], 0⟩
    ("user:GC") ("user") ("user.toml") ⟨("GC"), some ("user"), false⟩
    [(("GC"), ⟨("GC"), ("0h"), ("0d"), ("galactic")⟩)]
    ⟨("GC"), ("0h"), ("0d"), ("galactic")⟩ ⟨("GC"), ("1h"), ("2d"), ("icrs")⟩
    rfl rfl rfl rfl rfl rfl

/-- C7.  A parsed location key selects the IP-based strategy exactly when it
is the empty string or equals `here` case-insensitively — the empty disjunct
is vacuous, since the grammar never produces an empty key — and
`get_location` resolves through the strategy so selected. -/
theorem location_dispatch_here (ip : Except String Location)
    (net : String → Except String Location) (fs : FS Location) (raw : String)
    (p : ParsedQuery) (hparse : parse raw = Except.ok p) :
    ((p.query = "" ∨ toLowerStr p.query = HERE) ↔
      locationStrategy p.query = LocationStrategy.byIP) ∧
    get_location ip net fs raw =
      (match locationStrategy p.query with
       | LocationStrategy.byIP =>
           cache fs (p.source.getD AZELY_LOCATION) p.update p.query ip
       | LocationStrategy.byName =>
           cache fs (p.source.getD AZELY_LOCATION) p.update p.query (net p.query)) := by
  have hne := parse_ok_query_ne_empty raw p hparse
  constructor
  · constructor
    · rintro (h | h)
      · exact absurd h hne
      · simp [locationStrategy, h]
    · intro h
      by_cases hh : toLowerStr p.query = HERE
      · exact Or.inr hh
      · simp [locationStrategy, hh] at h
  · unfold get_location
    rw [hparse]
    by_cases hh : toLowerStr p.query = HERE
    · simp [locationStrategy, hh]
    · simp [locationStrategy, hh]

theorem location_dispatch_here_witness :
    ((("here" : String) = "" ∨ toLowerStr ("here") = HERE) ↔
      locationStrategy ("here") = LocationStrategy.byIP) ∧
    get_location ipStub netL ⟨[], 0⟩ ("here") =
      (match locationStrategy ("here") with
       | LocationStrategy.byIP =>
           cache ⟨[], 0⟩ ((none : Option String).getD AZELY_LOCATION) false ("here") ipStub
       | LocationStrategy.byName =>
           cache ⟨[], 0⟩ ((none : Option String).getD AZELY_LOCATION) false ("here")
             (netL ("here"))) :=
  location_dispatch_here ipStub netL ⟨[], 0⟩ ("here") ⟨("here"), none, false⟩ rfl

/-- C4.  On a missing key with `append = false`, `get_or_create` returns the
computed record but leaves the document untouched: the persisted table still
has no entry under the key afterwards. -/
theorem no_append_ephemeral {α : Type} (doc : Doc (Doc α)) (table key : String)
    (overwrite : Bool) (r : α)
    (habs : Doc.find ((Doc.find doc table).getD []) key = none) :
    get_or_create doc table key false overwrite (Except.ok r) = Except.ok (r, doc) ∧
    (match get_or_create doc table key false overwrite (Except.ok r) with
     | Except.ok (_, doc2) => Doc.find ((Doc.find doc2 table).getD []) key = none
     | Except.error _ => False) := by
  have h1 : get_or_create doc table key false overwrite (Except.ok r) = Except.ok (r, doc) := by
    simp only [get_or_create]
    rw [habs]
    rfl
  refine ⟨h1, ?_⟩
  rw [h1]
  exact habs

theorem no_append_ephemeral_witness :
    get_or_create [(("object"), [(("NGC1068"), ["x"])])] ("object") ("M87") false false
        (Except.ok ["y"]) = Except.ok (["y"], [(("object"), [(("NGC1068"), ["x"])])]) ∧
    (match get_or_create [(("object"), [(("NGC1068"), ["x"])])] ("object") ("M87") false false
        (Except.ok ["y"]) with
     | Except.ok (_, doc2) => Doc.find ((Doc.find doc2 ("object")).getD []) ("M87") = none
     | Except.error _ => False) :=
  no_append_ephemeral [(("object"), [(("NGC1068"), ["x"])])] ("object") ("M87") false
    ["y"] rfl

end Azely
